import Mathlib

/-!
# Verification of the demo blockchain core (`blockchain.rs`, `p2p.rs`, `main.rs`)

Shallow embedding of the block-validation / consensus / gossip engine.

Modelling decisions, in correspondence with the Rust source:

* `Block` mirrors the Rust struct field by field; `u64` fields become `Nat`,
  `i64` timestamps become `Int`, strings stay `String`.  The one arithmetic
  site on a `u64`, `previous_block.id + 1` in `is_block_valid`, is modelled
  with the wrap-around of the source type, `(previous_block.id + 1) % 2^64`
  (release-build overflow semantics; a debug build would panic on the
  overflowing addition at `previous_block.id = 2^64 - 1`).

* `calculate_hash` is SHA-256 over a canonical JSON serialization of the five
  block fields.  Every property below depends only on the digest being a
  deterministic function of `(id, timestamp, previous_hash, data, nonce)`
  producing a byte vector, never on SHA-256 internals, so the digest is a
  parameter `H : HashFun` of every definition; theorems quantify over all
  such functions (hence hold in particular for the real SHA-256-of-JSON).

* Rust panics (`expect`, explicit `panic!`, out-of-bounds indexing) are
  modelled as explicit result constructors (`Option.none`, `AddResult.panic…`,
  `ChooseResult.panic…`), so that "the process terminates" is visible in the
  result value.

* The unbounded mining loop is modelled with explicit fuel: `mineBlock … fuel`
  returns `.found nonce hash` exactly when the Rust loop returns within
  `fuel` iterations.

* `hex::encode` / `hex::decode` are implemented concretely on byte lists.
-/

namespace DemoBlockchain

/-- `DIFFICULTY_LEVEL` from `blockchain.rs`. -/
def DIFFICULTY_LEVEL : Nat := 2

/-- The `Block` struct from `blockchain.rs`. -/
structure Block where
  id : Nat
  hash : String
  previous_hash : String
  timestamp : Int
  data : String
  nonce : Nat
deriving DecidableEq, Repr

/-- The content digest `Block::calculate_hash`, abstracted: a deterministic
function of the five fields producing the digest's byte vector. -/
def HashFun : Type := Nat → Int → String → String → Nat → List Nat

/-! ## Hex encoding / decoding (the `hex` crate's `encode` / `decode`) -/

/-- Value of one hex digit character, `none` for a non-hex character. -/
def hexDigitVal (c : Char) : Option Nat :=
  if '0' ≤ c ∧ c ≤ '9' then some (c.toNat - 48)
  else if 'a' ≤ c ∧ c ≤ 'f' then some (c.toNat - 87)
  else if 'A' ≤ c ∧ c ≤ 'F' then some (c.toNat - 55)
  else none

/-- Lowercase hex digit character for a value `< 16` (as `hex::encode` emits). -/
def hexDigitChar (n : Nat) : Char :=
  if n < 10 then Char.ofNat (48 + n) else Char.ofNat (87 + n)

/-- Decode a character list as hex: pairs of digits, `none` on odd length or a
non-digit (the `Err` case of `hex::decode`). -/
def hexDecodeList : List Char → Option (List Nat)
  | [] => some []
  | [_] => none
  | c1 :: c2 :: rest =>
    match hexDigitVal c1, hexDigitVal c2, hexDecodeList rest with
    | some hi, some lo, some bs => some ((hi * 16 + lo) :: bs)
    | _, _, _ => none

/-- `hex::decode` on a string. -/
def hexDecode (s : String) : Option (List Nat) :=
  hexDecodeList s.data

/-- Encode a byte list as lowercase hex characters. -/
def hexEncodeList : List Nat → List Char
  | [] => []
  | b :: bs => hexDigitChar (b / 16) :: hexDigitChar (b % 16) :: hexEncodeList bs

/-- `hex::encode` on a byte list. -/
def hexEncode (bs : List Nat) : String :=
  ⟨hexEncodeList bs⟩

/-! ## `Block::validate_hash`

The Rust loop `for i in 0..(difficulty / 2) { if hash[i] != 0 { return false } }`:
indexing past the end of `hash` is a panic, modelled as `none`. -/

/-- Loop body of `validate_hash`: check `k` more bytes starting at index `i`;
`none` models the out-of-bounds indexing panic. -/
def validateHashGo (hash : List Nat) : Nat → Nat → Option Bool
  | _, 0 => some true
  | i, k + 1 =>
    match hash[i]? with
    | none => none
    | some b => if b ≠ 0 then some false else validateHashGo hash (i + 1) k

/-- `Block::validate_hash(hash, difficulty)`: the first `difficulty / 2` bytes
must be zero. -/
def validateHash (hash : List Nat) (difficulty : Nat) : Option Bool :=
  validateHashGo hash 0 (difficulty / 2)

/-! ## `Block::mine_block` -/

/-- Result of the mining loop. -/
inductive MineResult where
  | found (nonce : Nat) (hash : String)
  | panicIndex
  | outOfFuel
deriving DecidableEq, Repr

/-- The body of `Block::mine_block`'s `loop`, with explicit fuel: starting at
`nonce`, try successive nonces; return the first whose digest passes
`validateHash` at `DIFFICULTY_LEVEL`, hex-encoding that digest. -/
def mineBlockGo (H : HashFun) (id : Nat) (timestamp : Int)
    (previous_hash data : String) : Nat → Nat → MineResult
  | _, 0 => .outOfFuel
  | nonce, fuel + 1 =>
    match validateHash (H id timestamp previous_hash data nonce) DIFFICULTY_LEVEL with
    | none => .panicIndex
    | some true => .found nonce (hexEncode (H id timestamp previous_hash data nonce))
    | some false => mineBlockGo H id timestamp previous_hash data (nonce + 1) fuel

/-- `Block::mine_block(id, timestamp, previous_hash, data)`: brute-force search
from `nonce = 0`. -/
def mineBlock (H : HashFun) (id : Nat) (timestamp : Int)
    (previous_hash data : String) (fuel : Nat) : MineResult :=
  mineBlockGo H id timestamp previous_hash data 0 fuel

/-! ## `App::is_block_valid` -/

/-- The size of the `u64` type: ids and nonces are `u64` values. -/
def U64_SIZE : Nat := 2 ^ 64

/-- `App::is_block_valid(block, previous_block)`.  `none` models the two
panics: `hex::decode(&block.hash).expect(…)` and the indexing inside
`validate_hash`.  The id check compares against the `u64` successor
`(previous_block.id + 1) % 2^64`, the meaning of `previous_block.id + 1` at
the source's type in a release build; for `previous_block.id < 2^64 - 1` this
is literally `previous_block.id + 1` (a debug build would panic on the
overflowing addition at `previous_block.id = 2^64 - 1`). -/
def isBlockValid (H : HashFun) (block previous_block : Block) : Option Bool :=
  if block.previous_hash ≠ previous_block.hash then
    some false
  else
    match hexDecode block.hash with
    | none => none
    | some decoded =>
      match validateHash decoded DIFFICULTY_LEVEL with
      | none => none
      | some ok =>
        if ok = false then some false
        else if block.id ≠ (previous_block.id + 1) % U64_SIZE then some false
        else if hexEncode (H block.id block.timestamp block.previous_hash
            block.data block.nonce) ≠ block.hash then some false
        else some true

/-- `App::is_chain_valid(chain)`: fold `is_block_valid` over adjacent pairs,
stopping at the first failure; a panic inside a pair check propagates. -/
def isChainValid (H : HashFun) : List Block → Option Bool
  | [] => some true
  | [_] => some true
  | a :: b :: rest =>
    match isBlockValid H b a with
    | none => none
    | some false => some false
    | some true => isChainValid H (b :: rest)

/-! ## `App::choose_chain` -/

/-- Result of `App::choose_chain`; the `panic…` constructors model the
explicit `panic!("local and remote are invalid")` and a panic raised while
validating either chain. -/
inductive ChooseResult where
  | chosen (chain : List Block)
  | panicBothInvalid
  | panicValidation
deriving DecidableEq, Repr

/-- `App::choose_chain(local, remote)`. -/
def chooseChain (H : HashFun) (localChain remote : List Block) : ChooseResult :=
  match isChainValid H localChain with
  | none => .panicValidation
  | some is_local_valid =>
    match isChainValid H remote with
    | none => .panicValidation
    | some is_remote_valid =>
      if is_local_valid && is_remote_valid then
        if remote.length ≤ localChain.length then .chosen localChain
        else .chosen remote
      else if is_remote_valid && !is_local_valid then .chosen remote
      else if is_local_valid && !is_remote_valid then .chosen localChain
      else .panicBothInvalid

/-! ## `App::genesis` and `App::try_add_bock` -/

/-- The genesis block pushed by `App::genesis` (its timestamp is
`Utc::now()`, passed here as `now`). -/
def genesisBlock (now : Int) : Block :=
  { id := 0
    timestamp := now
    previous_hash := "genesis"
    data := "genesis!"
    nonce := 2836
    hash := "0000f816a87f806bb0073dcf026a64fb40c946b5abee2573702828694d5b4c43" }

/-- Result of `App::try_add_bock`; the `panic…` constructors model
`self.blocks.last().expect("no blocks added")`, the explicit
`panic!("could not add block - invalid")`, and a panic inside
`is_block_valid`. -/
inductive AddResult where
  | added (blocks : List Block)
  | panicEmptyChain
  | panicInvalidBlock
  | panicValidation
deriving DecidableEq, Repr

/-- `App::try_add_bock(block)` acting on the current `blocks`. -/
def tryAddBock (H : HashFun) (blocks : List Block) (block : Block) : AddResult :=
  match blocks.getLast? with
  | none => .panicEmptyChain
  | some latest_block =>
    match isBlockValid H block latest_block with
    | none => .panicValidation
    | some true => .added (blocks ++ [block])
    | some false => .panicInvalidBlock

/-! ## The gossip coordinator's chain mutations (`p2p.rs`, `main.rs`)

Only the handlers the claims are about are modelled, as their effect on
`app.blocks` (publishing, logging and peer bookkeeping have no effect on the
chain): the event loop's `Init` arm, the `ChainResponse` branch and the
`Block` branch of `inject_event`.  The `LocalChainRequest` branch and the
input commands do not mutate the chain. -/

/-- `AppBehaviour::handle_init`'s effect on `app.blocks`: push the genesis
block, unconditionally.  In this source the function has no caller — the
event loop's `EventType::Init` match arm in `main.rs` is empty — so it is
dead code; it is kept here to state what the `Init` handler does *not* do. -/
def handleInit (now : Int) (blocks : List Block) : List Block :=
  blocks ++ [genesisBlock now]

/-- A chain-mutating event of the gossip coordinator. -/
inductive NodeEvent where
  | init (now : Int)
  | recvChainResponse (blocks : List Block)
  | recvBlock (b : Block)
deriving Repr

/-- One step of the coordinator: the new `app.blocks`, or `none` when the
handler panics (terminating the process).  The `Init` arm mirrors
`p2p::EventType::Init => {}` in `main.rs`: it does nothing — in particular it
does not call `handle_init`, so no genesis block is ever created by the
`Init` event. -/
def stepNode (H : HashFun) (st : List Block) : NodeEvent → Option (List Block)
  | .init _ => some st
  | .recvChainResponse bs =>
    match chooseChain H st bs with
    | .chosen c => some c
    | _ => none
  | .recvBlock b =>
    match tryAddBock H st b with
    | .added c => some c
    | _ => none

/-- Run a sequence of events from a starting chain; `none` as soon as one
handler panics. -/
def runNode (H : HashFun) (st : List Block) : List NodeEvent → Option (List Block)
  | [] => some st
  | e :: es =>
    match stepNode H st e with
    | none => none
    | some st2 => runNode H st2 es

/-! ## Concrete digest functions used to exercise the definitions -/

/-- A digest function whose digest is always the single zero byte. -/
def constHash : HashFun := fun _ _ _ _ _ => [0]

/-- A digest function for which the mining search first succeeds at
nonce `2`. -/
def searchHash : HashFun := fun _ _ _ _ nonce => if nonce = 2 then [0, 7] else [3]

/-! ## Helper lemmas -/

lemma hexDigitVal_hexDigitChar : ∀ n, n < 16 → hexDigitVal (hexDigitChar n) = some n := by
  decide

lemma hexDecodeList_hexEncodeList :
    ∀ bs : List Nat, (∀ b ∈ bs, b < 256) → hexDecodeList (hexEncodeList bs) = some bs := by
  intro bs
  induction bs with
  | nil => intro _; rfl
  | cons b bs ih =>
    intro h
    have hb : b < 256 := h b (List.mem_cons_self b bs)
    have h1 : b / 16 < 16 := Nat.div_lt_of_lt_mul (by omega)
    have h2 : b % 16 < 16 := Nat.mod_lt _ (by omega)
    have hrest := ih (fun x hx => h x (List.mem_cons_of_mem _ hx))
    simp only [hexEncodeList, hexDecodeList, hexDigitVal_hexDigitChar _ h1,
      hexDigitVal_hexDigitChar _ h2, hrest]
    have : b / 16 * 16 + b % 16 = b := by omega
    rw [this]

lemma hexDecode_hexEncode (bs : List Nat) (h : ∀ b ∈ bs, b < 256) :
    hexDecode (hexEncode bs) = some bs := by
  simpa [hexDecode, hexEncode] using hexDecodeList_hexEncodeList bs h

/-- Characterisation of success of `is_block_valid`: true exactly when all
four checks hold (the id check at the `u64` type). -/
lemma isBlockValid_eq_some_true (H : HashFun) (b pb : Block) :
    isBlockValid H b pb = some true ↔
      b.previous_hash = pb.hash ∧
      (∃ bs, hexDecode b.hash = some bs ∧ validateHash bs DIFFICULTY_LEVEL = some true) ∧
      b.id = (pb.id + 1) % U64_SIZE ∧
      hexEncode (H b.id b.timestamp b.previous_hash b.data b.nonce) = b.hash := by
  unfold isBlockValid
  by_cases h1 : b.previous_hash = pb.hash
  · simp only [h1, ne_eq, not_true_eq_false, if_false]
    cases hd : hexDecode b.hash with
    | none => simp [hd]
    | some bs =>
      cases hv : validateHash bs DIFFICULTY_LEVEL with
      | none => simp [hv]
      | some ok =>
        cases ok with
        | false => simp [hv]
        | true =>
          by_cases h3 : b.id = (pb.id + 1) % U64_SIZE
          · by_cases h4 :
              hexEncode (H b.id b.timestamp b.previous_hash b.data b.nonce) = b.hash
            · simp [h3, h4, hv]
            · simp [h3, h4, hv]
          · simp [h3, hv]
  · simp [h1]

/-- Unfolding of `is_chain_valid` on a chain with at least two blocks. -/
lemma isChainValid_cons_cons (H : HashFun) (x y : Block) (rest : List Block) :
    isChainValid H (x :: y :: rest) = some true ↔
      isBlockValid H y x = some true ∧ isChainValid H (y :: rest) = some true := by
  cases h : isBlockValid H y x with
  | none => simp [isChainValid, h]
  | some v => cases v <;> simp [isChainValid, h]

/-- What a successful run of the mining loop guarantees: the returned nonce is
at least the starting one, its digest passes the difficulty predicate, the
returned hash is that digest hex-encoded, and every nonce skipped on the way
failed the predicate. -/
lemma mineBlockGo_found (H : HashFun) (id : Nat) (timestamp : Int)
    (previous_hash data : String) :
    ∀ fuel start nonce hash,
      mineBlockGo H id timestamp previous_hash data start fuel = .found nonce hash →
      start ≤ nonce ∧
      validateHash (H id timestamp previous_hash data nonce) DIFFICULTY_LEVEL = some true ∧
      hash = hexEncode (H id timestamp previous_hash data nonce) ∧
      ∀ m, start ≤ m → m < nonce →
        validateHash (H id timestamp previous_hash data m) DIFFICULTY_LEVEL = some false := by
  intro fuel
  induction fuel with
  | zero => intro start nonce hash h; simp [mineBlockGo] at h
  | succ fuel ih =>
    intro start nonce hash h
    unfold mineBlockGo at h
    cases hv : validateHash (H id timestamp previous_hash data start) DIFFICULTY_LEVEL with
    | none => rw [hv] at h; simp at h
    | some ok =>
      cases ok with
      | true =>
        rw [hv] at h
        simp only [MineResult.found.injEq] at h
        obtain ⟨rfl, rfl⟩ := h
        exact ⟨Nat.le_refl _, hv, rfl, fun m hm1 hm2 => absurd hm2 (Nat.not_lt.mpr hm1)⟩
      | false =>
        rw [hv] at h
        obtain ⟨h1, h2, h3, h4⟩ := ih (start + 1) nonce hash h
        refine ⟨Nat.le_of_succ_le h1, h2, h3, fun m hm1 hm2 => ?_⟩
        rcases Nat.eq_or_lt_of_le hm1 with rfl | hlt
        · exact hv
        · exact h4 m hlt hm2

/-! ## Claims -/

/-- C1: whenever the mining loop returns `(nonce, hash)` for input
`(id, previous_hash, data)` at the fixed difficulty, the block assembled from
those fields passes `is_block_valid` against any predecessor whose `hash`
equals `previous_hash` and whose `id` is one less than `id`; moreover `nonce`
is the smallest nonce (counting up from 0) whose digest satisfies the
difficulty predicate — every smaller nonce fails it.  (`hbytes` records that
digests are byte vectors, as `Vec<u8>` guarantees in the source; `hid`
records that `id` is a `u64` value.) -/
theorem mine_block_spec (H : HashFun) (id : Nat) (timestamp : Int)
    (previous_hash data : String) (fuel nonce : Nat) (hash : String)
    (hmine : mineBlock H id timestamp previous_hash data fuel = .found nonce hash)
    (hbytes : ∀ n, ∀ byte ∈ H id timestamp previous_hash data n, byte < 256)
    (hid : id < U64_SIZE)
    (pb : Block) (hpbh : pb.hash = previous_hash) (hpbid : pb.id + 1 = id) :
    isBlockValid H ⟨id, hash, previous_hash, timestamp, data, nonce⟩ pb = some true ∧
    validateHash (H id timestamp previous_hash data nonce) DIFFICULTY_LEVEL = some true ∧
    ∀ m, m < nonce →
      validateHash (H id timestamp previous_hash data m) DIFFICULTY_LEVEL = some false := by
  obtain ⟨-, hvalid, hhash, hmin⟩ :=
    mineBlockGo_found H id timestamp previous_hash data fuel 0 nonce hash hmine
  refine ⟨?_, hvalid, fun m hm => hmin m (Nat.zero_le m) hm⟩
  rw [isBlockValid_eq_some_true]
  refine ⟨hpbh.symm, ⟨H id timestamp previous_hash data nonce, ?_, hvalid⟩, ?_, ?_⟩
  · rw [hhash]
    exact hexDecode_hexEncode _ (hbytes nonce)
  · rw [hpbid, Nat.mod_eq_of_lt hid]
  · exact hhash.symm

/-- Witness for C1 at a concrete digest function whose search succeeds at
nonce 2. -/
theorem mine_block_spec_witness :
    mineBlock searchHash 1 0 "ph" "d" 10 = .found 2 "0007" ∧
    isBlockValid searchHash ⟨1, "0007", "ph", 0, "d", 2⟩ ⟨0, "ph", "x", 0, "x", 0⟩ =
      some true ∧
    ∀ m, m < 2 →
      validateHash (searchHash 1 0 "ph" "d" m) DIFFICULTY_LEVEL = some false := by
  have hbytes : ∀ n, ∀ byte ∈ searchHash 1 0 "ph" "d" n, byte < 256 := by
    intro n byte hbyte
    by_cases hn : n = 2 <;> simp [searchHash, hn] at hbyte <;> omega
  have h := mine_block_spec searchHash 1 0 "ph" "d" 10 2 "0007" (by decide) hbytes
    (by decide) ⟨0, "ph", "x", 0, "x", 0⟩ rfl rfl
  exact ⟨by decide, h.1, h.2.2⟩

/-- C9: `try_add_bock` on an empty chain hits
`self.blocks.last().expect("no blocks added")` and panics for every block, so
an inbound gossip block handled before genesis exists terminates the
process. -/
theorem try_add_bock_empty_chain_panics (H : HashFun) (block : Block) :
    tryAddBock H [] block = .panicEmptyChain ∧
    stepNode H [] (.recvBlock block) = none := by
  constructor <;> rfl

/-- Witness for C9 at a concrete block. -/
theorem try_add_bock_empty_chain_panics_witness :
    tryAddBock constHash [] (genesisBlock 0) = .panicEmptyChain ∧
    stepNode constHash [] (.recvBlock (genesisBlock 0)) = none :=
  try_add_bock_empty_chain_panics constHash (genesisBlock 0)

/-- C4 (code behaviour at the failing input): an inbound block that fails
`is_block_valid` against the current tip makes `try_add_bock` hit
`panic!("could not add block - invalid")` — the handler terminates the
process instead of rejecting the block and continuing. -/
theorem try_add_bock_invalid_block_panics :
    isBlockValid constHash ⟨1, "00", "wrongprev", 0, "d", 0⟩ (genesisBlock 0) =
      some false ∧
    tryAddBock constHash [genesisBlock 0] ⟨1, "00", "wrongprev", 0, "d", 0⟩ =
      .panicInvalidBlock ∧
    stepNode constHash [genesisBlock 0] (.recvBlock ⟨1, "00", "wrongprev", 0, "d", 0⟩) =
      none := by
  decide

/-- C3 (code behaviour at the failing input): when both chains fail
validation, `choose_chain` hits `panic!("local and remote are invalid")` —
the `ChainResponse` handler terminates the process instead of recovering and
keeping the local chain. -/
theorem choose_chain_both_invalid_panics :
    isChainValid constHash [genesisBlock 0, genesisBlock 0] = some false ∧
    isChainValid constHash [genesisBlock 1, genesisBlock 1] = some false ∧
    chooseChain constHash [genesisBlock 0, genesisBlock 0]
      [genesisBlock 1, genesisBlock 1] = .panicBothInvalid ∧
    stepNode constHash [genesisBlock 0, genesisBlock 0]
      (.recvChainResponse [genesisBlock 1, genesisBlock 1]) = none := by
  decide

/-- C2: whenever both chains validate, `choose_chain` returns exactly the
longer chain, and the local one on equal lengths; when exactly one validates
it returns the valid one.  The result depends on nothing but the two validity
verdicts and the two lengths. -/
theorem choose_chain_rule (H : HashFun) (localChain remote : List Block) (lv rv : Bool)
    (hl : isChainValid H localChain = some lv) (hr : isChainValid H remote = some rv) :
    (lv = true → rv = true →
      chooseChain H localChain remote =
        .chosen (if remote.length ≤ localChain.length then localChain else remote)) ∧
    (lv = true → rv = true → remote.length = localChain.length →
      chooseChain H localChain remote = .chosen localChain) ∧
    (lv = true → rv = false → chooseChain H localChain remote = .chosen localChain) ∧
    (lv = false → rv = true → chooseChain H localChain remote = .chosen remote) := by
  refine ⟨?_, ?_, ?_, ?_⟩
  · intro h1 h2; subst h1; subst h2
    simp [chooseChain, hl, hr, apply_ite ChooseResult.chosen]
  · intro h1 h2 h3; subst h1; subst h2
    simp [chooseChain, hl, hr, Nat.le_of_eq h3]
  · intro h1 h2; subst h1; subst h2; simp [chooseChain, hl, hr]
  · intro h1 h2; subst h1; subst h2; simp [chooseChain, hl, hr]

/-- Witness for C2: the empty local chain and a valid singleton remote are
both valid; the longer (remote) chain is chosen. -/
theorem choose_chain_rule_witness :
    chooseChain constHash [] [genesisBlock 0] = .chosen [genesisBlock 0] := by
  have h := (choose_chain_rule constHash [] [genesisBlock 0] true true rfl rfl).1 rfl rfl
  simpa using h

/-- C5: `is_block_valid` returns `true` exactly when all four checks hold,
and returns `false` at the first failing check in the order (a) parent-hash
link, (b) difficulty prefix of the decoded hash, (c) sequential id,
(d) recomputed digest — in particular a failure of (a) yields `false` without
the hash even being decoded.  Check (c) compares against the `u64` successor
`(previous.id + 1) % 2^64` — the meaning of `previous_block.id + 1` at the
source's type — which is literally `previous.id + 1` whenever that sum is a
`u64` value (third and fourth clauses). -/
theorem validate_transition_checks (H : HashFun) (b pb : Block) :
    (b.previous_hash ≠ pb.hash → isBlockValid H b pb = some false) ∧
    (∀ bs, b.previous_hash = pb.hash → hexDecode b.hash = some bs →
      validateHash bs DIFFICULTY_LEVEL = some false → isBlockValid H b pb = some false) ∧
    (∀ bs, b.previous_hash = pb.hash → hexDecode b.hash = some bs →
      validateHash bs DIFFICULTY_LEVEL = some true → b.id ≠ (pb.id + 1) % U64_SIZE →
      isBlockValid H b pb = some false) ∧
    (∀ bs, b.previous_hash = pb.hash → hexDecode b.hash = some bs →
      validateHash bs DIFFICULTY_LEVEL = some true → pb.id + 1 < U64_SIZE →
      b.id ≠ pb.id + 1 → isBlockValid H b pb = some false) ∧
    (∀ bs, b.previous_hash = pb.hash → hexDecode b.hash = some bs →
      validateHash bs DIFFICULTY_LEVEL = some true → b.id = (pb.id + 1) % U64_SIZE →
      hexEncode (H b.id b.timestamp b.previous_hash b.data b.nonce) ≠ b.hash →
      isBlockValid H b pb = some false) ∧
    (isBlockValid H b pb = some true ↔
      b.previous_hash = pb.hash ∧
      (∃ bs, hexDecode b.hash = some bs ∧ validateHash bs DIFFICULTY_LEVEL = some true) ∧
      b.id = (pb.id + 1) % U64_SIZE ∧
      hexEncode (H b.id b.timestamp b.previous_hash b.data b.nonce) = b.hash) := by
  refine ⟨?_, ?_, ?_, ?_, ?_, isBlockValid_eq_some_true H b pb⟩
  · intro h; simp [isBlockValid, h]
  · intro bs h1 h2 h3; simp [isBlockValid, h1, h2, h3]
  · intro bs h1 h2 h3 h4; simp [isBlockValid, h1, h2, h3, h4]
  · intro bs h1 h2 h3 h4 h5
    simp [isBlockValid, h1, h2, h3, Nat.mod_eq_of_lt h4, h5]
  · intro bs h1 h2 h3 h4 h5
    rw [h1, h4] at h5
    simp [isBlockValid, h1, h2, h3, h4, h5]

/-- Witness for C5: a block whose parent link fails is rejected with `false`
even though its hash field is not decodable hex (check (a) short-circuits). -/
theorem validate_transition_checks_witness :
    (⟨1, "zz", "other", 0, "d", 0⟩ : Block).previous_hash ≠ (genesisBlock 0).hash ∧
    isBlockValid constHash ⟨1, "zz", "other", 0, "d", 0⟩ (genesisBlock 0) = some false :=
  ⟨by decide, (validate_transition_checks constHash _ _).1 (by decide)⟩

/-- Counterexample to C6 as stated: a chain accepted by `is_chain_valid`
whose ids do *not* strictly increase.  The first block of a chain is never
validated, so its id may be the largest `u64` value `2^64 - 1`; the id check
on the next block then wraps, accepting id `0`.  Both ids are legal `u64`
values and the chain is attacker-suppliable as a remote chain. -/
theorem valid_chain_ids_wrap_counterexample :
    isChainValid constHash
      [⟨18446744073709551615, "00", "p", 0, "d", 0⟩, ⟨0, "00", "00", 0, "d", 0⟩] =
      some true ∧
    (⟨0, "00", "00", 0, "d", 0⟩ : Block).id ≠
      (⟨18446744073709551615, "00", "p", 0, "d", 0⟩ : Block).id + 1 ∧
    (⟨0, "00", "00", 0, "d", 0⟩ : Block).id <
      (⟨18446744073709551615, "00", "p", 0, "d", 0⟩ : Block).id := by
  decide

/-- C6 as amended: along any chain accepted by `is_chain_valid`, each
adjacent pair satisfies `chain[i+1].id = (chain[i].id + 1) % 2^64` — the
`u64` successor — so ids strictly increase by exactly 1 with no gaps and no
repeats except across the `u64` wrap-around, where a valid chain may step
from id `2^64 - 1` to id `0` (a debug build would instead panic on the
overflowing addition). -/
theorem valid_chain_ids_sequential (H : HashFun) :
    ∀ chain : List Block, isChainValid H chain = some true →
      ∀ i (a b : Block), chain[i]? = some a → chain[i + 1]? = some b →
        b.id = (a.id + 1) % U64_SIZE ∧ (a.id + 1 < U64_SIZE → b.id = a.id + 1) := by
  intro chain
  induction chain with
  | nil => intro _ i a b ha _; simp at ha
  | cons x xs ih =>
    intro h i a b ha hb
    cases xs with
    | nil =>
      rcases i with _ | j <;> simp at hb
    | cons y ys =>
      have hcc := (isChainValid_cons_cons H x y ys).mp h
      rcases i with _ | j
      · simp only [List.getElem?_cons_zero, Option.some.injEq] at ha
        simp only [List.getElem?_cons_succ, List.getElem?_cons_zero,
          Option.some.injEq] at hb
        subst ha; subst hb
        have hmod := ((isBlockValid_eq_some_true H _ _).mp hcc.1).2.2.1
        exact ⟨hmod, fun hlt => by rw [hmod, Nat.mod_eq_of_lt hlt]⟩
      · exact ih hcc.2 j a b (by simpa using ha) (by simpa using hb)

/-- Witness for the amended C6 on a concrete valid two-block chain, where the
`u64` successor is the plain successor. -/
theorem valid_chain_ids_sequential_witness :
    isChainValid constHash [⟨0, "00", "p", 0, "d", 0⟩, ⟨1, "00", "00", 0, "d", 0⟩] =
      some true ∧
    (⟨1, "00", "00", 0, "d", 0⟩ : Block).id =
      ((⟨0, "00", "p", 0, "d", 0⟩ : Block).id + 1) % U64_SIZE ∧
    (⟨1, "00", "00", 0, "d", 0⟩ : Block).id = (⟨0, "00", "p", 0, "d", 0⟩ : Block).id + 1 := by
  have h := valid_chain_ids_sequential constHash
    [⟨0, "00", "p", 0, "d", 0⟩, ⟨1, "00", "00", 0, "d", 0⟩] (by decide)
    0 ⟨0, "00", "p", 0, "d", 0⟩ ⟨1, "00", "00", 0, "d", 0⟩ rfl rfl
  exact ⟨by decide, h.1, h.2 (by decide)⟩

/-- Counterexample to C7 as stated: two distinct valid chains of equal
length.  `choose_chain(A, B)` returns `A` while `choose_chain(B, A)` returns
`B`, so in the both-valid-equal-length case the two orders do *not* agree
(and `choose_chain(B, A)` does not return `A`). -/
theorem choose_chain_symmetry_counterexample :
    isChainValid constHash [genesisBlock 0] = some true ∧
    isChainValid constHash [genesisBlock 1] = some true ∧
    ([genesisBlock 0] : List Block).length = ([genesisBlock 1] : List Block).length ∧
    chooseChain constHash [genesisBlock 0] [genesisBlock 1] =
      .chosen [genesisBlock 0] ∧
    chooseChain constHash [genesisBlock 1] [genesisBlock 0] =
      .chosen [genesisBlock 1] ∧
    ([genesisBlock 0] : List Block) ≠ [genesisBlock 1] := by
  decide

/-- C7 as amended: the two argument orders of `choose_chain` agree when both
chains are invalid (both panic), when exactly one is valid (both return the
valid chain), and when both are valid with different lengths (both return the
longer); when both are valid with equal length, `choose_chain(A, B)` returns
`A` and `choose_chain(B, A)` returns `B`, so the outcomes differ whenever
`A ≠ B`. -/
theorem choose_chain_symmetry (H : HashFun) (A B : List Block) (av bv : Bool)
    (ha : isChainValid H A = some av) (hb : isChainValid H B = some bv) :
    (av = false → bv = false →
      chooseChain H A B = .panicBothInvalid ∧ chooseChain H B A = .panicBothInvalid) ∧
    (av = true → bv = false →
      chooseChain H A B = .chosen A ∧ chooseChain H B A = .chosen A) ∧
    (av = false → bv = true →
      chooseChain H A B = .chosen B ∧ chooseChain H B A = .chosen B) ∧
    (av = true → bv = true → B.length < A.length →
      chooseChain H A B = .chosen A ∧ chooseChain H B A = .chosen A) ∧
    (av = true → bv = true → A.length < B.length →
      chooseChain H A B = .chosen B ∧ chooseChain H B A = .chosen B) ∧
    (av = true → bv = true → A.length = B.length →
      chooseChain H A B = .chosen A ∧ chooseChain H B A = .chosen B) := by
  refine ⟨?_, ?_, ?_, ?_, ?_, ?_⟩
  · intro h1 h2; subst h1; subst h2
    exact ⟨by simp [chooseChain, ha, hb], by simp [chooseChain, ha, hb]⟩
  · intro h1 h2; subst h1; subst h2
    exact ⟨by simp [chooseChain, ha, hb], by simp [chooseChain, ha, hb]⟩
  · intro h1 h2; subst h1; subst h2
    exact ⟨by simp [chooseChain, ha, hb], by simp [chooseChain, ha, hb]⟩
  · intro h1 h2 h3; subst h1; subst h2
    exact ⟨by simp [chooseChain, ha, hb, Nat.le_of_lt h3],
      by simp [chooseChain, ha, hb, Nat.not_le.mpr h3]⟩
  · intro h1 h2 h3; subst h1; subst h2
    exact ⟨by simp [chooseChain, ha, hb, Nat.not_le.mpr h3],
      by simp [chooseChain, ha, hb, Nat.le_of_lt h3]⟩
  · intro h1 h2 h3; subst h1; subst h2
    exact ⟨by simp [chooseChain, ha, hb, Nat.le_of_eq h3.symm],
      by simp [chooseChain, ha, hb, Nat.le_of_eq h3]⟩

/-- Witness for the amended C7: one valid and one invalid chain; both
argument orders return the valid chain. -/
theorem choose_chain_symmetry_witness :
    chooseChain constHash [genesisBlock 0] [genesisBlock 0, genesisBlock 0] =
      .chosen [genesisBlock 0] ∧
    chooseChain constHash [genesisBlock 0, genesisBlock 0] [genesisBlock 0] =
      .chosen [genesisBlock 0] :=
  (choose_chain_symmetry constHash [genesisBlock 0] [genesisBlock 0, genesisBlock 0]
    true false (by decide) (by decide)).2.1 rfl rfl

/-- C8 (code behaviour at the failing input): handling the one-shot `Init`
event leaves the chain unchanged — in particular, the node that starts with
the empty chain still has the empty chain after `Init`, and no genesis block
is ever created by it, because the event loop's `EventType::Init` arm in
`main.rs` is empty and `AppBehaviour::handle_init` — the only code that
creates genesis, shown in the third conjunct — is never called. -/
theorem init_event_creates_no_genesis (H : HashFun) (now : Int) (st : List Block) :
    stepNode H st (.init now) = some st ∧
    runNode H [] [.init now] = some [] ∧
    handleInit now st = st ++ [genesisBlock now] :=
  ⟨rfl, rfl, rfl⟩

/-- Witness for C8 at a concrete state and time. -/
theorem init_event_creates_no_genesis_witness :
    stepNode constHash [genesisBlock 0] (.init 7) = some [genesisBlock 0] ∧
    runNode constHash [] [.init 7] = some [] ∧
    handleInit 7 [genesisBlock 0] = [genesisBlock 0] ++ [genesisBlock 7] :=
  init_event_creates_no_genesis constHash 7 [genesisBlock 0]

/-- Counterexample to C10 as stated: a block whose `hash` is not decodable
hex but whose `previous_hash` does not match the predecessor is rejected with
`false` — no panic, because check (a) short-circuits before the hash is
decoded. -/
theorem validate_transition_malformed_counterexample :
    hexDecode (⟨1, "zz", "nomatch", 0, "d", 0⟩ : Block).hash = none ∧
    isBlockValid constHash ⟨1, "zz", "nomatch", 0, "d", 0⟩ ⟨0, "tip", "p", 0, "g", 0⟩ =
      some false := by
  decide

/-- C10 as amended: for a block whose parent link matches, a `hash` field
that is not decodable hex (the `expect` on `hex::decode`), or that decodes to
fewer than `difficulty/2` bytes (out-of-bounds indexing in `validate_hash`),
makes `is_block_valid` panic instead of returning `false`. -/
theorem validate_transition_malformed_hash_panics (H : HashFun) (b pb : Block)
    (h1 : b.previous_hash = pb.hash)
    (h2 : hexDecode b.hash = none ∨
      ∃ bs, hexDecode b.hash = some bs ∧ bs.length < DIFFICULTY_LEVEL / 2) :
    isBlockValid H b pb = none := by
  rcases h2 with h2 | ⟨bs, h2, hlen⟩
  · simp [isBlockValid, h1, h2]
  · have hbs : bs = [] := by
      cases bs with
      | nil => rfl
      | cons c cs => simp [DIFFICULTY_LEVEL] at hlen
    subst hbs
    have hvh : validateHash [] DIFFICULTY_LEVEL = none := rfl
    simp [isBlockValid, h1, h2, hvh]

/-- Witness for the amended C10: matching parent link plus a non-hex `hash`
field panics. -/
theorem validate_transition_malformed_hash_panics_witness :
    isBlockValid constHash ⟨1, "zz", "tip", 0, "d", 0⟩ ⟨0, "tip", "p", 0, "g", 0⟩ =
      none :=
  validate_transition_malformed_hash_panics constHash
    ⟨1, "zz", "tip", 0, "d", 0⟩ ⟨0, "tip", "p", 0, "g", 0⟩ rfl (Or.inl (by decide))

end DemoBlockchain
